import Mathlib

/-!
# Verification of `pdf_extractor.py`

A shallow embedding of the single source file `src/pdf_extractor.py` of the
`pdf-to-sqlite-parser` repository, together with theorems settling the claims
of its design specification.

Modelling conventions:
* A PDF page is a value carrying its extractable text (a list of characters)
  and its detected tables (a table is a list of rows, a row a list of cells,
  a cell an optional string — `pymupdf` reports missing cells as `None`).
* The two regular expressions of `extract_metadata` are embedded directly:
  both are `re.MULTILINE` patterns anchored with `^`, so `re.search` scans
  line-start positions left to right and returns the leftmost match.  The
  character classes involved (`[A-Z]`, `[a-z]`, `\d`) are disjoint from the
  literal that follows each repetition, so greedy maximal munch needs no
  backtracking and is modelled with `takeWhile`.
* The SQLite store is `Option (List ReportRow)`: `none` means the table
  `mesc_reports` does not exist (every INSERT then raises `sqlite3.Error`,
  which the per-row handler catches), `some tbl` means it exists and holds
  `tbl`.  `with sqlite3.connect(...) as conn:` commits the implicit
  transaction when the block exits normally, and rolls it back when an
  exception escapes the block; `write_sql` models this by discarding the
  pending inserts on an escaping exception.
* Exceptions that escape a Python function are modelled as explicit values:
  `PyErr.indexError` is the `IndexError` raised by `row[5]` on a short row
  (caught by neither `except sqlite3.Error` clause of `write_sql`), and
  `PyErr.typeError` is the `TypeError` raised by the zero-argument
  `logging.exception()` call in the `except` clause of `extract_data`.
  Per-row sqlite failures are caught in the source, so they are modelled
  by an oracle `fails : ReportRow → Bool` rather than as exceptions.
-/

namespace PdfExtractor

/-- A table cell as produced by `Table.extract()`: a string, or `None`. -/
abbrev Cell := Option String

/-- One row of an extracted table. -/
abbrev Row := List Cell

/-- An extracted table: its row grid. -/
abbrev Table := List Row

/-- One PDF page: its extractable text and its detected tables. -/
structure Page where
  text : List Char
  tables : List Table
deriving DecidableEq

/-- An opened PDF document: its ordered sequence of pages. -/
abbrev Document := List Page

/-! ## The regular-expression model -/

/-- `[A-Z]` of the source patterns. -/
def isUpperAZ (c : Char) : Bool := 'A' ≤ c && c ≤ 'Z'

/-- `[a-z]` of the source patterns. -/
def isLowerAZ (c : Char) : Bool := 'a' ≤ c && c ≤ 'z'

/-- `\d` of the source patterns (ASCII digits). -/
def isDigit09 (c : Char) : Bool := '0' ≤ c && c ≤ '9'

/-- Numeric value of an ASCII digit, as in `int()` on a digit string. -/
def digitVal (c : Char) : Nat := c.toNat - 48

/-- Strip an exact literal from the front of the input, as matching a literal
portion of a regex does; `none` if the input does not start with it. -/
def dropLit : List Char → List Char → Option (List Char)
  | [], s => some s
  | _ :: _, [] => none
  | p :: ps, c :: cs => if c = p then dropLit ps cs else none

/-- Match `([A-Z][a-z]+) ([A-Z]+)` (the body of `nm_search`, whose `^` anchor
is handled by the line-start scan of `reSearch`) at the head of the input,
returning the captures `(firstname, surname)`. -/
def nmMatchAt : List Char → Option (String × String)
  | [] => none
  | c :: rest =>
    if isUpperAZ c then
      let low := rest.takeWhile isLowerAZ
      if low.isEmpty then none
      else
        match rest.drop low.length with
        | ' ' :: rest2 =>
          let up := rest2.takeWhile isUpperAZ
          if up.isEmpty then none else some (⟨c :: low⟩, ⟨up⟩)
        | _ => none
    else none

/-- Match `Semester (\d), (\d{4}) - Progress Report (\d)` (the body of
`se_search`) at the head of the input, returning the integer captures in
textual order `(semester, year, report)`. -/
def seMatchAt (s : List Char) : Option (Nat × Nat × Nat) :=
  match dropLit "Semester ".data s with
  | none => none
  | some s1 =>
    match s1 with
    | [] => none
    | d1 :: s2 =>
      if isDigit09 d1 then
        match dropLit ", ".data s2 with
        | none => none
        | some s3 =>
          match s3 with
          | y1 :: y2 :: y3 :: y4 :: s4 =>
            if isDigit09 y1 && isDigit09 y2 && isDigit09 y3 && isDigit09 y4 then
              match dropLit " - Progress Report ".data s4 with
              | none => none
              | some s5 =>
                match s5 with
                | [] => none
                | d3 :: _ =>
                  if isDigit09 d3 then
                    some (digitVal d1,
                      1000 * digitVal y1 + 100 * digitVal y2 +
                        10 * digitVal y3 + digitVal y4,
                      digitVal d3)
                  else none
            else none
          | _ => none
      else none

/-- `re.search` of a `re.MULTILINE` pattern anchored with `^`: scan positions
left to right, attempting the anchored body `m` at every line start (the
start of the string when the flag is set, and the position after each
newline), and return the leftmost match. -/
def reSearch {α : Type} (m : List Char → Option α) : List Char → Bool → Option α
  | [], ls => if ls then m [] else none
  | c :: rest, ls =>
    match (if ls then m (c :: rest) else none) with
    | some r => some r
    | none => reSearch m rest (c == '\n')

/-- Whether position `i` of the input is a line start, `ls` telling whether
position `0` is one (true at the start of the whole page text). -/
def lineStartAt (s : List Char) (ls : Bool) : Nat → Bool
  | 0 => ls
  | i + 1 => s[i]? == some '\n'

/-- `nm_search.search(page_text)` of the source. -/
def nmSearch (s : List Char) : Option (String × String) := reSearch nmMatchAt s true

/-- `se_search.search(page_text)` of the source. -/
def seSearch (s : List Char) : Option (Nat × Nat × Nat) := reSearch seMatchAt s true

/-! ## Records -/

/-- The metadata dictionary built by `extract_metadata`. -/
structure MetadataRecord where
  firstname : String
  surname : String
  year : Nat
  semester : Nat
  report : Nat
deriving DecidableEq

/-- The dictionary `{**extracted_metadata, "all_rows": extracted_tabledata}`
returned by `extract_data`. -/
structure ExtractionResult where
  metadata : MetadataRecord
  all_rows : List Row
deriving DecidableEq

/-! ## `extract_metadata` -/

/-- The body of `extract_metadata`'s per-page loop: search the name pattern,
`continue` (i.e. `none`) if it misses, then search the semester pattern,
`continue` if it misses, otherwise return the metadata dictionary built from
the captures (`semester, year, report = map(int, semester_match.groups())`). -/
def pageMatch (p : Page) : Option MetadataRecord :=
  match nmSearch p.text with
  | none => none
  | some (fn, sn) =>
    match seSearch p.text with
    | none => none
    | some (sem, yr, rep) =>
      some { firstname := fn, surname := sn, year := yr, semester := sem, report := rep }

/-- `extract_metadata`: first page whose both patterns match wins; `None`
when no page yields both matches. -/
def extract_metadata : Document → Option MetadataRecord
  | [] => none
  | p :: rest =>
    match pageMatch p with
    | some r => some r
    | none => extract_metadata rest

/-! ## `extract_tabledata` -/

/-- The header marker literal of the source. -/
def areasMarker : String := "Areas Of Assessment"

/-- `table_rows and "Areas Of Assessment" in table_rows[0]`: the grid is
non-empty and the marker string is a member of its first row — Python `in`
on a list is membership, i.e. some cell of the first row equals the marker
exactly. -/
def tableQual : Table → Bool
  | [] => false
  | r :: _ => r.any (fun c => c == some areasMarker)

/-- The inner loop of `extract_tabledata` over one page's detected tables:
return `table_rows[2:]` of the first qualifying table. -/
def findTable : List Table → Option (List Row)
  | [] => none
  | t :: rest => if tableQual t then some (t.drop 2) else findTable rest

/-- `extract_tabledata`: scan pages in order, each page's tables in detection
order; first qualifying table wins, `None` if none qualifies. -/
def extract_tabledata : Document → Option (List Row)
  | [] => none
  | p :: rest =>
    match findTable p.tables with
    | some rs => some rs
    | none => extract_tabledata rest

/-! ## `extract_data` -/

/-- `extract_data`'s successful path: metadata, then table data, each checked
against `None` (`is None` — an empty row list is *not* `None` and passes). -/
def extract_data (doc : Document) : Option ExtractionResult :=
  match extract_metadata doc with
  | none => none
  | some m =>
    match extract_tabledata doc with
    | none => none
    | some rows => some { metadata := m, all_rows := rows }

/-! ## The SQLite model and `write_sql` / `setup_sql` -/

/-- A Python exception escaping one of the modelled functions. -/
inductive PyErr where
  | typeError
  | indexError
deriving DecidableEq

/-- One row of the `mesc_reports` table. -/
structure ReportRow where
  firstname : String
  surname : String
  year : Nat
  semester : Nat
  report : Nat
  subject : Cell
  evidence_of_learning : Cell
  personal_learning : Cell
  working_with_others : Cell
  orderly_behaviour : Cell
  learning_outside_classroom : Cell
deriving DecidableEq

/-- The SQLite database: `none` when the `mesc_reports` table does not exist
(every INSERT then raises `sqlite3.Error`), `some tbl` when it exists with
rows `tbl` in insertion order. -/
abbrev SqlState := Option (List ReportRow)

/-- The tuple bound to the INSERT placeholders: the five metadata fields and
`row[0], ..., row[5]`.  Only evaluated when the row has at least 6 cells
(otherwise `row[5]` raises `IndexError` first — see `insertLoop`). -/
def mkReportRow (m : MetadataRecord) (row : Row) : ReportRow :=
  { firstname := m.firstname, surname := m.surname, year := m.year,
    semester := m.semester, report := m.report,
    subject := row.getD 0 none,
    evidence_of_learning := row.getD 1 none,
    personal_learning := row.getD 2 none,
    working_with_others := row.getD 3 none,
    orderly_behaviour := row.getD 4 none,
    learning_outside_classroom := row.getD 5 none }

/-- The `for row in extracted_data["all_rows"]` loop of `write_sql`, with the
pending (not yet committed) inserts accumulated in `acc`.  A row with fewer
than 6 cells raises `IndexError` while building the parameter tuple; the
`except sqlite3.Error` clause does not catch it, so the loop aborts.  A
sqlite error on `cur.execute` — modelled by the table being absent
(`tableExists = false`) or by the failure oracle `fails` — is caught, logged
and the row skipped. -/
def insertLoop (tableExists : Bool) (fails : ReportRow → Bool) (m : MetadataRecord) :
    List Row → List ReportRow → List ReportRow × Option PyErr
  | [], acc => (acc, none)
  | row :: rest, acc =>
    if 6 ≤ row.length then
      if tableExists && !fails (mkReportRow m row) then
        insertLoop tableExists fails m rest (acc ++ [mkReportRow m row])
      else
        insertLoop tableExists fails m rest acc
    else
      (acc, some PyErr.indexError)

/-- `write_sql`: open a scoped connection (a connection-open `sqlite3.Error`,
`connFails`, is caught by the outer handler and the call returns quietly);
run the insert loop; on normal exit of the `with` block the implicit
transaction commits the pending inserts, while an escaping `IndexError`
rolls them back and propagates out of `write_sql`. -/
def write_sql (connFails : Bool) (fails : ReportRow → Bool) (ed : ExtractionResult)
    (st : SqlState) : SqlState × Option PyErr :=
  if connFails then (st, none)
  else
    match insertLoop st.isSome fails ed.metadata ed.all_rows [] with
    | (acc, none) => (st.map (fun tbl => tbl ++ acc), none)
    | (_, some e) => (st, some e)

/-- `setup_sql`: drop and recreate `mesc_reports`.  A `sqlite3.Error` is
caught and logged inside the function, which then returns normally, leaving
the database as it was. -/
def setup_sql (setupFails : Bool) (st : SqlState) : SqlState :=
  if setupFails then st else some []

/-! ## The batch driver -/

/-- Per-document batch inputs: the document's pages, whether `pymupdf.open`
succeeds, whether `sqlite3.connect` fails in `write_sql` for this document,
and the per-insert sqlite failure oracle. -/
structure PDoc where
  doc : Document
  openOk : Bool
  connFails : Bool
  fails : ReportRow → Bool

/-- `extract_data` as called by the driver: when `pymupdf.open` (or anything
else in the `with` block not already caught per page) raises, the `except`
clause calls `logging.exception()` with no argument, which itself raises
`TypeError`; that `TypeError` escapes `extract_data`. -/
def extract_data_run (pd : PDoc) : Except PyErr (Option ExtractionResult) :=
  if pd.openOk then Except.ok (extract_data pd.doc) else Except.error PyErr.typeError

/-- One iteration of `iterate_files`' loop body: extraction, the `is None`
skip, then `write_sql`; the resulting database state together with the
exception, if any, that the `except Exception` clause will catch. -/
def processOne (pd : PDoc) (st : SqlState) : SqlState × Option PyErr :=
  match extract_data_run pd with
  | Except.error e => (st, some e)
  | Except.ok none => (st, none)
  | Except.ok (some ed) => write_sql pd.connFails pd.fails ed st

/-- `iterate_files`: every exception of the loop body is caught and logged by
`except Exception` and the loop continues.  Returns the final database state
and the number of files whose processing was attempted. -/
def iterate_files : List PDoc → SqlState → SqlState × Nat
  | [], st => (st, 0)
  | pd :: rest, st =>
    let r := processOne pd st
    let rr := iterate_files rest r.1
    (rr.1, rr.2 + 1)

/-- `main`: set up the schema, then iterate over the file list. -/
def main (setupFails : Bool) (files : List PDoc) (st : SqlState) : SqlState × Nat :=
  iterate_files files (setup_sql setupFails st)

/-! ## First-match characterizations -/

theorem findSome?_first_some {α β : Type} (f : α → Option β) :
    ∀ (l : List α) (b : β),
      l.findSome? f = some b ↔
        ∃ (i : Nat) (a : α), l[i]? = some a ∧ f a = some b ∧
          ∀ (j : Nat) (c : α), j < i → l[j]? = some c → f c = none := by
  intro l
  induction l with
  | nil => intro b; simp [List.findSome?]
  | cons a l ih =>
    intro b
    cases hf : f a with
    | some b0 =>
      simp only [List.findSome?_cons, hf]
      constructor
      · intro h
        exact ⟨0, a, by simp, by rw [hf]; exact h,
          fun j c hj _ => absurd hj (Nat.not_lt_zero j)⟩
      · rintro ⟨i, x, hx, hfx, hmin⟩
        match i with
        | 0 =>
          simp only [List.getElem?_cons_zero, Option.some.injEq] at hx
          subst hx
          rw [hf] at hfx
          exact hfx
        | j + 1 =>
          have h0 : f a = none := hmin 0 a (Nat.succ_pos j) (by simp)
          rw [hf] at h0
          exact absurd h0 (Option.some_ne_none b0)
    | none =>
      simp only [List.findSome?_cons, hf]
      rw [ih b]
      constructor
      · rintro ⟨i, x, hx, hfx, hmin⟩
        refine ⟨i + 1, x, by simpa using hx, hfx, ?_⟩
        intro j c hj hc
        match j with
        | 0 =>
          simp only [List.getElem?_cons_zero, Option.some.injEq] at hc
          subst hc
          exact hf
        | k + 1 =>
          exact hmin k c (Nat.lt_of_succ_lt_succ hj) (by simpa using hc)
      · rintro ⟨i, x, hx, hfx, hmin⟩
        match i with
        | 0 =>
          simp only [List.getElem?_cons_zero, Option.some.injEq] at hx
          subst hx
          rw [hf] at hfx
          exact absurd hfx (Option.noConfusion)
        | k + 1 =>
          refine ⟨k, x, by simpa using hx, hfx, ?_⟩
          intro j c hj hc
          exact hmin (j + 1) c (Nat.succ_lt_succ hj) (by simpa using hc)

theorem findSome?_append_eq {α β : Type} (f : α → Option β) :
    ∀ (l₁ l₂ : List α),
      (l₁ ++ l₂).findSome? f =
        match l₁.findSome? f with
        | some b => some b
        | none => l₂.findSome? f := by
  intro l₁ l₂
  induction l₁ with
  | nil => simp [List.findSome?]
  | cons a l ih =>
    simp only [List.cons_append, List.findSome?_cons]
    cases hf : f a <;> simp [ih]

theorem extract_metadata_eq_findSome? :
    ∀ doc : Document, extract_metadata doc = doc.findSome? pageMatch := by
  intro doc
  induction doc with
  | nil => rfl
  | cons p rest ih =>
    simp only [extract_metadata, List.findSome?_cons, ih]
    cases h : pageMatch p <;> simp

/-- The per-table selector of `extract_tabledata`'s inner loop. -/
def tabSel (t : Table) : Option (List Row) :=
  if tableQual t then some (t.drop 2) else none

theorem findTable_eq_findSome? :
    ∀ ts : List Table, findTable ts = ts.findSome? tabSel := by
  intro ts
  induction ts with
  | nil => rfl
  | cons t rest ih =>
    simp only [findTable, List.findSome?_cons, tabSel, ih]
    by_cases h : tableQual t <;> simp [h]

/-- The sequence of tables `extract_tabledata` scans: pages in document
order, each page's tables in detection order. -/
def allTables (doc : Document) : List Table :=
  (doc.map Page.tables).flatten

theorem extract_tabledata_eq_findSome? :
    ∀ doc : Document, extract_tabledata doc = (allTables doc).findSome? tabSel := by
  intro doc
  induction doc with
  | nil => rfl
  | cons p rest ih =>
    have ha : allTables (p :: rest) = p.tables ++ allTables rest := by
      simp [allTables]
    rw [ha, findSome?_append_eq]
    simp only [extract_tabledata, findTable_eq_findSome?, ih]
    cases List.findSome? tabSel p.tables <;> rfl

/-! ## Leftmost-match property of the `re.search` model -/

theorem lineStartAt_cons (c : Char) (rest : List Char) (ls : Bool) (i : Nat) :
    lineStartAt (c :: rest) ls (i + 1) = lineStartAt rest (c == '\n') i := by
  cases i with
  | zero => simp [lineStartAt]
  | succ k => simp [lineStartAt]

theorem reSearch_some {α : Type} (m : List Char → Option α) :
    ∀ (s : List Char) (ls : Bool) (r : α), reSearch m s ls = some r →
      ∃ j : Nat, lineStartAt s ls j = true ∧ m (s.drop j) = some r ∧
        ∀ i : Nat, i < j → lineStartAt s ls i = true → m (s.drop i) = none := by
  intro s
  induction s with
  | nil =>
    intro ls r h
    simp only [reSearch] at h
    by_cases hls : ls
    · subst hls
      exact ⟨0, rfl, by simpa using h, fun i hi => absurd hi (Nat.not_lt_zero i)⟩
    · simp [hls] at h
  | cons c rest ih =>
    intro ls r h
    simp only [reSearch] at h
    split at h
    · rename_i heq
      by_cases hls : ls
      · subst hls
        simp only [if_true] at heq
        refine ⟨0, rfl, ?_, fun i hi => absurd hi (Nat.not_lt_zero i)⟩
        rw [List.drop_zero, heq]
        exact h
      · simp [hls] at heq
    · rename_i heq
      obtain ⟨j, h1, h2, h3⟩ := ih (c == '\n') r h
      refine ⟨j + 1, ?_, ?_, ?_⟩
      · rw [lineStartAt_cons]; exact h1
      · simpa using h2
      · intro i hi hils
        match i with
        | 0 =>
          have hls : ls = true := hils
          subst hls
          simp only [if_true] at heq
          simpa using heq
        | k + 1 =>
          rw [lineStartAt_cons] at hils
          have := h3 k (Nat.lt_of_succ_lt_succ hi) hils
          simpa using this

theorem reSearch_none {α : Type} (m : List Char → Option α) :
    ∀ (s : List Char) (ls : Bool), reSearch m s ls = none →
      ∀ i : Nat, lineStartAt s ls i = true → m (s.drop i) = none := by
  intro s
  induction s with
  | nil =>
    intro ls h i hls
    simp only [reSearch] at h
    match i with
    | 0 =>
      have : ls = true := hls
      subst this
      simpa using h
    | k + 1 => simp [lineStartAt] at hls
  | cons c rest ih =>
    intro ls h i hls
    simp only [reSearch] at h
    split at h
    · exact absurd h (Option.some_ne_none _)
    · rename_i heq
      match i with
      | 0 =>
        have : ls = true := hls
        subst this
        simp only [if_true] at heq
        simpa using heq
      | k + 1 =>
        rw [lineStartAt_cons] at hls
        have := ih (c == '\n') h k hls
        simpa using this

/-! ## Behaviour of the insert loop -/

theorem insertLoop_all_long (fails : ReportRow → Bool) (m : MetadataRecord) :
    ∀ (rows : List Row) (acc : List ReportRow),
      (∀ r ∈ rows, 6 ≤ r.length) →
      insertLoop true fails m rows acc =
        (acc ++ (rows.map (mkReportRow m)).filter (fun rr => !fails rr), none) := by
  intro rows
  induction rows with
  | nil => intro acc _; simp [insertLoop]
  | cons row rest ih =>
    intro acc h
    have hr : 6 ≤ row.length := h row (List.mem_cons_self row rest)
    have hrest : ∀ r ∈ rest, 6 ≤ r.length := fun r hm => h r (List.mem_cons_of_mem row hm)
    simp only [insertLoop, if_pos hr, Bool.true_and]
    by_cases hf : fails (mkReportRow m row)
    · simp [hf, ih acc hrest, List.filter_cons]
    · simp [hf, ih (acc ++ [mkReportRow m row]) hrest, List.filter_cons]

theorem insertLoop_short_aborts (fails : ReportRow → Bool) (m : MetadataRecord) :
    ∀ (pre : List Row) (short : Row) (post : List Row) (acc : List ReportRow),
      short.length < 6 → (∀ r ∈ pre, 6 ≤ r.length) →
      ∃ acc2, insertLoop true fails m (pre ++ short :: post) acc =
        (acc2, some PyErr.indexError) := by
  intro pre
  induction pre with
  | nil =>
    intro short post acc hs _
    exact ⟨acc, by simp [insertLoop, Nat.not_le_of_lt hs]⟩
  | cons row rest ih =>
    intro short post acc hs h
    have hr : 6 ≤ row.length := h row (List.mem_cons_self row rest)
    have hrest : ∀ r ∈ rest, 6 ≤ r.length := fun r hm => h r (List.mem_cons_of_mem row hm)
    simp only [List.cons_append, insertLoop, if_pos hr, Bool.true_and]
    by_cases hf : fails (mkReportRow m row)
    · simpa [hf] using ih short post acc hs hrest
    · simpa [hf] using ih short post (acc ++ [mkReportRow m row]) hs hrest

theorem insertLoop_no_table (fails : ReportRow → Bool) (m : MetadataRecord) :
    ∀ (rows : List Row) (acc : List ReportRow),
      ∃ e, insertLoop false fails m rows acc = (acc, e) := by
  intro rows
  induction rows with
  | nil => intro acc; exact ⟨none, rfl⟩
  | cons row rest ih =>
    intro acc
    by_cases hr : 6 ≤ row.length
    · simpa [insertLoop, hr] using ih acc
    · exact ⟨some PyErr.indexError, by simp [insertLoop, hr]⟩

theorem write_sql_all_long (fails : ReportRow → Bool) (m : MetadataRecord)
    (rows : List Row) (tbl : List ReportRow) (h : ∀ r ∈ rows, 6 ≤ r.length) :
    write_sql false fails ⟨m, rows⟩ (some tbl) =
      (some (tbl ++ (rows.map (mkReportRow m)).filter (fun rr => !fails rr)), none) := by
  simp [write_sql, insertLoop_all_long fails m rows [] h]

theorem write_sql_no_table (connFails : Bool) (fails : ReportRow → Bool)
    (ed : ExtractionResult) : ∃ e, write_sql connFails fails ed none = (none, e) := by
  by_cases hc : connFails
  · exact ⟨none, by simp [write_sql, hc]⟩
  · obtain ⟨e, he⟩ := insertLoop_no_table fails ed.metadata ed.all_rows []
    cases e with
    | none => exact ⟨none, by simp [write_sql, hc, he]⟩
    | some e2 => exact ⟨some e2, by simp [write_sql, hc, he]⟩

/-! ## Behaviour of the driver -/

theorem iterate_files_count :
    ∀ (files : List PDoc) (st : SqlState), (iterate_files files st).2 = files.length := by
  intro files
  induction files with
  | nil => intro st; rfl
  | cons pd rest ih => intro st; simp [iterate_files, ih]

theorem iterate_files_append :
    ∀ (xs ys : List PDoc) (st : SqlState),
      iterate_files (xs ++ ys) st =
        ((iterate_files ys (iterate_files xs st).1).1,
          (iterate_files ys (iterate_files xs st).1).2 + xs.length) := by
  intro xs
  induction xs with
  | nil => intro ys st; simp [iterate_files]
  | cons pd rest ih =>
    intro ys st
    simp [iterate_files, ih, Nat.add_assoc]

theorem processOne_no_table (pd : PDoc) : (processOne pd none).1 = none := by
  unfold processOne
  cases h : extract_data_run pd with
  | error e => rfl
  | ok o =>
    cases o with
    | none => rfl
    | some ed =>
      obtain ⟨e, he⟩ := write_sql_no_table pd.connFails pd.fails ed
      simp [he]

theorem iterate_files_no_table :
    ∀ (files : List PDoc), iterate_files files none = (none, files.length) := by
  intro files
  induction files with
  | nil => rfl
  | cons pd rest ih =>
    simp [iterate_files, processOne_no_table pd, ih]

/-! ## The claims -/

/-- Textual containment (Python `in` on two strings): the first character
list occurs contiguously somewhere in the second. -/
def containsSub : List Char → List Char → Bool
  | pat, [] => (dropLit pat []).isSome
  | pat, c :: rest => (dropLit pat (c :: rest)).isSome || containsSub pat rest

theorem tabSel_some {t : Table} {b : List Row} :
    tabSel t = some b ↔ (tableQual t = true ∧ b = t.drop 2) := by
  unfold tabSel
  by_cases h : tableQual t <;> simp [h, eq_comm]

theorem tabSel_none {t : Table} : tabSel t = none ↔ tableQual t = false := by
  unfold tabSel
  by_cases h : tableQual t <;> simp [h]

/-- The always-succeeding insert oracle: no `sqlite3.Error` on any
`cur.execute`. -/
def noFail : ReportRow → Bool := fun _ => false

/-- The document of the end-to-end example of the spec, except that its
marker table has only 2 rows, so `table_rows[2:]` is empty. -/
def docC1 : Document :=
  [{ text := "Jane SMITH\nSemester 1, 2024 - Progress Report 2".data,
     tables := [[[some "Areas Of Assessment"], [some "x"]]] }]

/-- Claim C1 is false as stated: on `docC1`, whose marker-matching table has
fewer than 3 rows, table extraction yields the empty row list `[]`, which is
not `None`, so `extract_data` does produce an `ExtractionResult` — one whose
`all_rows` is empty — instead of skipping the document. -/
theorem C1_counterexample :
    extract_data docC1 =
      some { metadata := { firstname := "Jane", surname := "SMITH",
                           year := 2024, semester := 1, report := 2 },
             all_rows := [] } := by decide

/-- Claim C1, amended: an extraction result exists exactly when metadata
extraction and table extraction both return non-`None`; its row sequence is
the extracted row block and may be empty (the `is None` check does not treat
an empty row list as absent). -/
theorem C1_amended (doc : Document) (r : ExtractionResult) :
    extract_data doc = some r ↔
      (extract_metadata doc = some r.metadata ∧
        extract_tabledata doc = some r.all_rows) := by
  obtain ⟨rm, rr⟩ := r
  unfold extract_data
  cases hm : extract_metadata doc <;> cases ht : extract_tabledata doc <;>
    simp [ExtractionResult.mk.injEq]

/-- Claim C2: for every document, metadata extraction returns the captured
fields of the first page, in document order, on which both the identity
pattern and the period pattern match that page's text (`pageMatch`), and
stops there; if no page matches both patterns it returns NotFound
(`None`). -/
theorem C2_metadata_first_page_both_match (doc : Document) :
    (∀ r : MetadataRecord,
      extract_metadata doc = some r ↔
        ∃ (i : Nat) (p : Page), doc[i]? = some p ∧ pageMatch p = some r ∧
          ∀ (j : Nat) (q : Page), j < i → doc[j]? = some q → pageMatch q = none)
    ∧ (extract_metadata doc = none ↔ ∀ p ∈ doc, pageMatch p = none) := by
  constructor
  · intro r
    rw [extract_metadata_eq_findSome?]
    exact findSome?_first_some pageMatch doc r
  · rw [extract_metadata_eq_findSome?]
    exact List.findSome?_eq_none_iff

/-- A document whose only table's first row's first cell textually contains
the marker `"Areas Of Assessment"` (as a proper substring) and which has
exactly 3 rows. -/
def docC3 : Document :=
  [{ text := [],
     tables := [[[some "Areas Of Assessment - 2024"], [some "a"], [some "b"]]] }]

/-- Claim C3 is false as stated: the single table of `docC3` is non-empty,
its first row's first cell textually contains `"Areas Of Assessment"`, and it
has 3 rows, so the claim requires `extract_tabledata docC3 = some [[some "b"]]`;
but the source's `"Areas Of Assessment" in table_rows[0]` is Python list
membership (exact cell equality), so the table is not selected and the result
is `None`. -/
theorem C3_counterexample :
    allTables docC3 = [[[some "Areas Of Assessment - 2024"], [some "a"], [some "b"]]] ∧
    containsSub areasMarker.data "Areas Of Assessment - 2024".data = true ∧
    extract_tabledata docC3 = none := by
  refine ⟨rfl, by decide, rfl⟩

/-- Claim C3, amended: table extraction selects the first table (pages in
document order, tables in detection order) that is non-empty and **some cell
of whose first row equals exactly** `"Areas Of Assessment"` (list membership,
not substring containment on the first cell), and returns that table's rows
from index 2 onward; if no table qualifies it returns NotFound (`None`). -/
theorem C3_amended (doc : Document) :
    (∀ rs : List Row,
      extract_tabledata doc = some rs ↔
        ∃ (i : Nat) (t : Table), (allTables doc)[i]? = some t ∧
          tableQual t = true ∧ rs = t.drop 2 ∧
          ∀ (j : Nat) (u : Table), j < i → (allTables doc)[j]? = some u →
            tableQual u = false)
    ∧ (extract_tabledata doc = none ↔ ∀ t ∈ allTables doc, tableQual t = false) := by
  constructor
  · intro rs
    rw [extract_tabledata_eq_findSome?, findSome?_first_some]
    constructor
    · rintro ⟨i, t, h1, h2, h3⟩
      rw [tabSel_some] at h2
      exact ⟨i, t, h1, h2.1, h2.2, fun j u hj hu => tabSel_none.mp (h3 j u hj hu)⟩
    · rintro ⟨i, t, h1, h2, h3, h4⟩
      exact ⟨i, t, h1, tabSel_some.mpr ⟨h2, h3⟩,
        fun j u hj hu => tabSel_none.mpr (h4 j u hj hu)⟩
  · rw [extract_tabledata_eq_findSome?, List.findSome?_eq_none_iff]
    exact ⟨fun h t ht => tabSel_none.mp (h t ht), fun h t ht => tabSel_none.mpr (h t ht)⟩

/-- Claim C4 is false as stated: in a result whose first row has a single
cell and whose second row is a perfectly insertable 6-cell row, the short row
does not merely get skipped — its `IndexError` escapes both `except
sqlite3.Error` handlers, the transaction is rolled back, and the second row
is never attempted (the store stays empty), although writing that second row
alone would succeed. -/
theorem C4_counterexample :
    write_sql false noFail
      { metadata := { firstname := "Jane", surname := "SMITH",
                      year := 2024, semester := 1, report := 2 },
        all_rows := [[some "Maths"],
          [some "Mathematics", some "Good", some "Good", some "Good",
            some "Good", some "Good"]] }
      (some []) = (some [], some PyErr.indexError) ∧
    write_sql false noFail
      { metadata := { firstname := "Jane", surname := "SMITH",
                      year := 2024, semester := 1, report := 2 },
        all_rows := [[some "Mathematics", some "Good", some "Good", some "Good",
          some "Good", some "Good"]] }
      (some []) =
      (some [{ firstname := "Jane", surname := "SMITH", year := 2024,
               semester := 1, report := 2, subject := some "Mathematics",
               evidence_of_learning := some "Good",
               personal_learning := some "Good",
               working_with_others := some "Good",
               orderly_behaviour := some "Good",
               learning_outside_classroom := some "Good" }], none) := by
  exact ⟨rfl, rfl⟩

/-- Claim C4, amended: an insert (`sqlite3.Error`) failure on a single row is
caught and only that row is skipped, every remaining row of the result still
being attempted; but a row with fewer than 6 cells raises an `IndexError`
that neither `except sqlite3.Error` clause catches, so the write aborts, the
transaction is rolled back (rows of this result inserted before it are
discarded), and the remaining rows are not attempted. -/
theorem C4_amended :
    (∀ (fails : ReportRow → Bool) (m : MetadataRecord) (rows : List Row)
        (tbl : List ReportRow),
      (∀ r ∈ rows, 6 ≤ r.length) →
      write_sql false fails { metadata := m, all_rows := rows } (some tbl) =
        (some (tbl ++ (rows.map (mkReportRow m)).filter (fun rr => !fails rr)),
          none))
    ∧ (∀ (fails : ReportRow → Bool) (m : MetadataRecord) (pre : List Row)
        (short : Row) (post : List Row) (tbl : List ReportRow),
      short.length < 6 → (∀ r ∈ pre, 6 ≤ r.length) →
      write_sql false fails
          { metadata := m, all_rows := pre ++ short :: post } (some tbl) =
        (some tbl, some PyErr.indexError)) := by
  constructor
  · exact fun fails m rows tbl h => write_sql_all_long fails m rows tbl h
  · intro fails m pre short post tbl hs hp
    obtain ⟨acc2, he⟩ := insertLoop_short_aborts fails m pre short post [] hs hp
    simp [write_sql, he]

/-- Witness for the amended C4 at concrete inputs: a lone 6-cell row is
inserted, and a lone 1-cell row aborts the write with `IndexError`. -/
theorem C4_amended_witness :
    write_sql false noFail
      { metadata := { firstname := "A", surname := "B", year := 1,
                      semester := 2, report := 3 },
        all_rows := [[some "s", some "a", some "b", some "c", some "d", some "e"]] }
      (some []) =
      (some [mkReportRow
        { firstname := "A", surname := "B", year := 1, semester := 2, report := 3 }
        [some "s", some "a", some "b", some "c", some "d", some "e"]], none) ∧
    write_sql false noFail
      { metadata := { firstname := "A", surname := "B", year := 1,
                      semester := 2, report := 3 },
        all_rows := [[some "s"]] }
      (some []) = (some [], some PyErr.indexError) := by
  refine ⟨?_, ?_⟩
  · exact (C4_amended.1 noFail
      { firstname := "A", surname := "B", year := 1, semester := 2, report := 3 }
      [[some "s", some "a", some "b", some "c", some "d", some "e"]] []
      (by decide)).trans (by decide)
  · exact (C4_amended.2 noFail
      { firstname := "A", surname := "B", year := 1, semester := 2, report := 3 }
      [] [some "s"] [] [] (by decide) (by decide)).trans (by decide)

/-- A fully well-formed single-document batch input: page 1 carries both
metadata patterns, and a marker table with 3 rows whose third row has the six
expected cells. -/
def pdC5 : PDoc :=
  { doc := [{ text := "Jane SMITH\nSemester 1, 2024 - Progress Report 2".data,
              tables := [[[some "Areas Of Assessment"], [some "sub"],
                [some "Mathematics", some "Good", some "Good", some "Good",
                  some "Good", some "Good"]]] }],
    openOk := true, connFails := false, fails := noFail }

/-- Claim C5 is false as stated: when schema initialization fails, `setup_sql`
catches and logs the `sqlite3.Error` and returns normally, so `main` still
proceeds to process the batch — here one fully extractable document is
processed (the count is 1, not 0); its inserts then fail row by row against
the missing table. -/
theorem C5_counterexample : main true [pdC5] none = (none, 1) := by
  have h := iterate_files_no_table [pdC5]
  simpa [main, setup_sql] using h

/-- Claim C5, amended: if schema initialization fails, the failure is caught
and logged inside `setup_sql` and the batch still proceeds to process every
document of the list; each row insert then fails against the absent table and
is skipped, so nothing is ever persisted. -/
theorem C5_amended :
    ∀ files : List PDoc, main true files none = (none, files.length) := by
  intro files
  simpa [main, setup_sql] using iterate_files_no_table files

/-- Claim C6: every per-document exception (modelled: the `TypeError` escaping
`extract_data` on a decode failure, the `IndexError` escaping `write_sql` on a
short row) is caught by `iterate_files`, which proceeds to the next document:
for every file list and every configuration of failures the batch attempts
exactly every file of the list, and processing a prefix never prevents the
rest of the list from being processed. -/
theorem C6_batch_always_completes :
    ∀ (files : List PDoc) (st : SqlState),
      (iterate_files files st).2 = files.length ∧
      ∀ (xs ys : List PDoc),
        iterate_files (xs ++ ys) st =
          ((iterate_files ys (iterate_files xs st).1).1,
            (iterate_files ys (iterate_files xs st).1).2 + xs.length) := by
  intro files st
  exact ⟨iterate_files_count files st, fun xs ys => iterate_files_append xs ys st⟩

/-- Claim C7: `write_sql` is not idempotent — for a result whose rows are all
successfully insertable (6 cells, no sqlite error), writing it once appends
one block of `rows.length` report rows, and writing it a second time without
re-initialization appends the same block again (2k rows in total from that
result), with no deduplication. -/
theorem C7_write_twice_duplicates :
    ∀ (fails : ReportRow → Bool) (m : MetadataRecord) (rows : List Row)
      (tbl : List ReportRow),
      (∀ r ∈ rows, 6 ≤ r.length ∧ fails (mkReportRow m r) = false) →
      (rows.map (mkReportRow m)).length = rows.length ∧
      write_sql false fails { metadata := m, all_rows := rows } (some tbl) =
        (some (tbl ++ rows.map (mkReportRow m)), none) ∧
      write_sql false fails { metadata := m, all_rows := rows }
          (some (tbl ++ rows.map (mkReportRow m))) =
        (some (tbl ++ rows.map (mkReportRow m) ++ rows.map (mkReportRow m)),
          none) := by
  intro fails m rows tbl h
  have hlong : ∀ r ∈ rows, 6 ≤ r.length := fun r hr => (h r hr).1
  have hfilter :
      (rows.map (mkReportRow m)).filter (fun rr => !fails rr) =
        rows.map (mkReportRow m) := by
    rw [List.filter_eq_self]
    intro a ha
    obtain ⟨r, hr, rfl⟩ := List.mem_map.mp ha
    simp [(h r hr).2]
  refine ⟨List.length_map rows (mkReportRow m), ?_, ?_⟩
  · rw [write_sql_all_long fails m rows tbl hlong, hfilter]
  · rw [write_sql_all_long fails m rows (tbl ++ rows.map (mkReportRow m)) hlong,
      hfilter]

/-- Witness for C7 at a concrete input: one insertable row, written twice,
appears twice in the store. -/
theorem C7_write_twice_duplicates_witness :
    (([[some "s", some "a", some "b", some "c", some "d", some "e"]] :
        List Row).map (mkReportRow
          { firstname := "A", surname := "B", year := 1, semester := 2,
            report := 3 })).length =
      ([[some "s", some "a", some "b", some "c", some "d", some "e"]] :
        List Row).length ∧
    write_sql false noFail
      { metadata := { firstname := "A", surname := "B", year := 1,
                      semester := 2, report := 3 },
        all_rows := [[some "s", some "a", some "b", some "c", some "d", some "e"]] }
      (some []) =
      (some ([] ++ ([[some "s", some "a", some "b", some "c", some "d", some "e"]] :
        List Row).map (mkReportRow
          { firstname := "A", surname := "B", year := 1, semester := 2,
            report := 3 })), none) ∧
    write_sql false noFail
      { metadata := { firstname := "A", surname := "B", year := 1,
                      semester := 2, report := 3 },
        all_rows := [[some "s", some "a", some "b", some "c", some "d", some "e"]] }
      (some ([] ++ ([[some "s", some "a", some "b", some "c", some "d", some "e"]] :
        List Row).map (mkReportRow
          { firstname := "A", surname := "B", year := 1, semester := 2,
            report := 3 }))) =
      (some ([] ++ ([[some "s", some "a", some "b", some "c", some "d", some "e"]] :
        List Row).map (mkReportRow
          { firstname := "A", surname := "B", year := 1, semester := 2,
            report := 3 }) ++ ([[some "s", some "a", some "b", some "c", some "d",
          some "e"]] : List Row).map (mkReportRow
          { firstname := "A", surname := "B", year := 1, semester := 2,
            report := 3 })), none) := by
  exact C7_write_twice_duplicates noFail
    { firstname := "A", surname := "B", year := 1, semester := 2, report := 3 }
    [[some "s", some "a", some "b", some "c", some "d", some "e"]] [] (by decide)

theorem getD_take_six (row : Row) (i : Nat) (h : i < 6) :
    (row.take 6).getD i none = row.getD i none := by
  simp [List.getD_eq_getElem?_getD, List.getElem?_take_of_lt h]

theorem mkReportRow_take_six (m : MetadataRecord) (row : Row) :
    mkReportRow m (row.take 6) = mkReportRow m row := by
  have h0 := getD_take_six row 0 (by omega)
  have h1 := getD_take_six row 1 (by omega)
  have h2 := getD_take_six row 2 (by omega)
  have h3 := getD_take_six row 3 (by omega)
  have h4 := getD_take_six row 4 (by omega)
  have h5 := getD_take_six row 5 (by omega)
  simp [mkReportRow, h0, h1, h2, h3, h4, h5]

theorem insertLoop_take_six (te : Bool) (fails : ReportRow → Bool)
    (m : MetadataRecord) (row : Row) (rest : List Row) (acc : List ReportRow)
    (h : 6 < row.length) :
    insertLoop te fails m (row.take 6 :: rest) acc =
      insertLoop te fails m (row :: rest) acc := by
  have h6 : 6 ≤ row.length := Nat.le_of_lt h
  have ht : 6 ≤ (row.take 6).length := by
    simp only [List.length_take]
    omega
  simp only [insertLoop, if_pos h6, if_pos ht, mkReportRow_take_six]

/-- Claim C8: for every row with more than 6 cells, `write_sql` persists
exactly the cells at positions 0 through 5 (position 0 as the subject,
positions 1–5 as the five assessment fields) and ignores every cell from
position 6 on: the inserted report row is built from `row[0], ..., row[5]`,
and replacing the row by its first six cells leaves the write unchanged. -/
theorem C8_extra_cells_ignored :
    ∀ (fails : ReportRow → Bool) (m : MetadataRecord) (row : Row)
      (rest : List Row) (st : SqlState), 6 < row.length →
      mkReportRow m row =
        { firstname := m.firstname, surname := m.surname, year := m.year,
          semester := m.semester, report := m.report,
          subject := row.getD 0 none,
          evidence_of_learning := row.getD 1 none,
          personal_learning := row.getD 2 none,
          working_with_others := row.getD 3 none,
          orderly_behaviour := row.getD 4 none,
          learning_outside_classroom := row.getD 5 none } ∧
      write_sql false fails { metadata := m, all_rows := row :: rest } st =
        write_sql false fails
          { metadata := m, all_rows := row.take 6 :: rest } st := by
  intro fails m row rest st h
  refine ⟨rfl, ?_⟩
  simp only [write_sql, if_neg (Bool.false_ne_true)]
  rw [insertLoop_take_six _ _ _ _ _ _ h]

/-- Witness for C8 at a concrete input: a 7-cell row inserts exactly its
first six cells, and dropping the seventh cell leaves the write unchanged. -/
theorem C8_extra_cells_ignored_witness :
    mkReportRow
      { firstname := "A", surname := "B", year := 1, semester := 2, report := 3 }
      [some "s", some "a", some "b", some "c", some "d", some "e", some "extra"] =
      { firstname := "A", surname := "B", year := 1, semester := 2, report := 3,
        subject := some "s", evidence_of_learning := some "a",
        personal_learning := some "b", working_with_others := some "c",
        orderly_behaviour := some "d", learning_outside_classroom := some "e" } ∧
    write_sql false noFail
      { metadata := { firstname := "A", surname := "B", year := 1,
                      semester := 2, report := 3 },
        all_rows := [[some "s", some "a", some "b", some "c", some "d",
          some "e", some "extra"]] }
      (some []) =
      write_sql false noFail
        { metadata := { firstname := "A", surname := "B", year := 1,
                        semester := 2, report := 3 },
          all_rows := [[some "s", some "a", some "b", some "c", some "d",
            some "e"]] }
        (some []) := by
  exact C8_extra_cells_ignored noFail
    { firstname := "A", surname := "B", year := 1, semester := 2, report := 3 }
    [some "s", some "a", some "b", some "c", some "d", some "e", some "extra"]
    [] (some []) (by decide)

/-- Claim C9: within a single page, metadata extraction uses the earliest
occurrence of each pattern in the page's text: whenever it returns a record,
the record's name captures come from the leftmost line-start position at
which the identity pattern matches (no earlier line-start position matches),
and its period captures likewise from the leftmost match of the period
pattern. -/
theorem C9_leftmost_occurrence :
    ∀ (txt : List Char) (tbls : List Table) (r : MetadataRecord),
      extract_metadata [{ text := txt, tables := tbls }] = some r →
      (∃ j : Nat, lineStartAt txt true j = true ∧
          nmMatchAt (txt.drop j) = some (r.firstname, r.surname) ∧
          ∀ i : Nat, i < j → lineStartAt txt true i = true →
            nmMatchAt (txt.drop i) = none)
      ∧ (∃ j : Nat, lineStartAt txt true j = true ∧
          seMatchAt (txt.drop j) = some (r.semester, r.year, r.report) ∧
          ∀ i : Nat, i < j → lineStartAt txt true i = true →
            seMatchAt (txt.drop i) = none) := by
  intro txt tbls r h
  have hsingle : ∀ p : Page, extract_metadata [p] = pageMatch p := by
    intro p
    cases hq : pageMatch p <;> simp [extract_metadata, hq]
  have hp : pageMatch { text := txt, tables := tbls } = some r := by
    rw [← hsingle]
    exact h
  cases hnm : nmSearch txt with
  | none => exfalso; simp [pageMatch, hnm] at hp
  | some c1 =>
    obtain ⟨fn, sn⟩ := c1
    cases hse : seSearch txt with
    | none => exfalso; simp [pageMatch, hnm, hse] at hp
    | some c2 =>
      obtain ⟨sem, yr, rep⟩ := c2
      have hr : r = { firstname := fn, surname := sn, year := yr,
                      semester := sem, report := rep } := by
        simp only [pageMatch, hnm, hse, Option.some.injEq] at hp
        exact hp.symm
      subst hr
      constructor
      · obtain ⟨j, h1, h2, h3⟩ := reSearch_some nmMatchAt txt true (fn, sn) hnm
        exact ⟨j, h1, h2, h3⟩
      · obtain ⟨j, h1, h2, h3⟩ := reSearch_some seMatchAt txt true (sem, yr, rep) hse
        exact ⟨j, h1, h2, h3⟩

/-- Witness for C9 at a concrete input: on a page whose text matches the
identity pattern on two lines and the period pattern on two lines, extraction
returns the captures of the two earliest matches. -/
theorem C9_leftmost_occurrence_witness :
    (∃ j : Nat,
      lineStartAt
        "Jane SMITH\nBob JONES\nSemester 1, 2024 - Progress Report 2\nSemester 2, 2025 - Progress Report 1\n".data
        true j = true ∧
      nmMatchAt
        ("Jane SMITH\nBob JONES\nSemester 1, 2024 - Progress Report 2\nSemester 2, 2025 - Progress Report 1\n".data.drop j) =
        some ("Jane", "SMITH") ∧
      ∀ i : Nat, i < j →
        lineStartAt
          "Jane SMITH\nBob JONES\nSemester 1, 2024 - Progress Report 2\nSemester 2, 2025 - Progress Report 1\n".data
          true i = true →
        nmMatchAt
          ("Jane SMITH\nBob JONES\nSemester 1, 2024 - Progress Report 2\nSemester 2, 2025 - Progress Report 1\n".data.drop i) =
          none)
    ∧ (∃ j : Nat,
      lineStartAt
        "Jane SMITH\nBob JONES\nSemester 1, 2024 - Progress Report 2\nSemester 2, 2025 - Progress Report 1\n".data
        true j = true ∧
      seMatchAt
        ("Jane SMITH\nBob JONES\nSemester 1, 2024 - Progress Report 2\nSemester 2, 2025 - Progress Report 1\n".data.drop j) =
        some (1, 2024, 2) ∧
      ∀ i : Nat, i < j →
        lineStartAt
          "Jane SMITH\nBob JONES\nSemester 1, 2024 - Progress Report 2\nSemester 2, 2025 - Progress Report 1\n".data
          true i = true →
        seMatchAt
          ("Jane SMITH\nBob JONES\nSemester 1, 2024 - Progress Report 2\nSemester 2, 2025 - Progress Report 1\n".data.drop i) =
          none) := by
  exact C9_leftmost_occurrence
    "Jane SMITH\nBob JONES\nSemester 1, 2024 - Progress Report 2\nSemester 2, 2025 - Progress Report 1\n".data
    []
    { firstname := "Jane", surname := "SMITH", year := 2024, semester := 1,
      report := 2 }
    (by decide)

/-- Claim C10: calling `write_sql` on a result whose row sequence is empty
performs zero inserts, leaves the store unchanged, and raises nothing — for
every store state and every failure configuration the call returns the store
as it was. -/
theorem C10_write_empty_rows (connFails : Bool) (fails : ReportRow → Bool)
    (m : MetadataRecord) (st : SqlState) :
    write_sql connFails fails { metadata := m, all_rows := [] } st = (st, none) := by
  by_cases hc : connFails
  · simp [write_sql, hc]
  · cases st <;> simp [write_sql, hc, insertLoop]

end PdfExtractor
